import Mathlib

/-!
# Verification of the Snake Game score service (app/main.py)

Shallow embedding of the aggregation endpoints of the FastAPI service:
the persistent store is a list of `Score` rows (table `scores` of
app/models.py), and each endpoint of app/main.py becomes a Lean function
over that list.  SQL constructs are translated to list operations:

* `GROUP BY player_name` + `MAX(score)` joined back on
  `(player_name, score)` — a row survives the join exactly when its score
  equals the maximum score among rows with the same `player_name`
  (`isGroupMax`);
* `ORDER BY … DESC` — a sort with respect to the descending key
  (`List.insertionSort`; SQLite leaves the relative order of ties
  unspecified, the embedding fixes one permitted order);
* `LIMIT n` — SQLite semantics: a negative bound means "no limit",
  otherwise take the first `n` rows (`sqlLimit`);
* Python `round(x, 1)` — exact round-half-to-even on rationals
  (`round1`), the idealisation of the float computation;
* SQL `AVG` / Python `sum/len` — exact rational division.
-/

/-- A row of the `scores` table (app/models.py, class `Score`). -/
structure Score where
  id : ℤ
  player_name : String
  score : ℤ
  snake_length : ℤ
  duration_seconds : ℤ
  created_at : ℕ
  deriving DecidableEq, Repr

/-- Payload of `POST /api/scores` (app/schemas.py, class `ScoreCreate`). -/
structure ScoreCreate where
  player_name : String
  score : ℤ
  snake_length : ℤ
  duration_seconds : ℤ
  deriving DecidableEq, Repr

/-- One leaderboard row (app/schemas.py, class `LeaderboardEntry`). -/
structure LeaderboardEntry where
  rank : ℕ
  player_name : String
  score : ℤ
  snake_length : ℤ
  created_at : ℕ
  deriving DecidableEq, Repr

/-- Response of `GET /api/leaderboard` (class `LeaderboardResponse`). -/
structure LeaderboardResponse where
  entries : List LeaderboardEntry
  total_games : ℕ
  deriving DecidableEq, Repr

/-- Response of `GET /api/scores/best` (class `BestScoreResponse`). -/
structure BestScoreResponse where
  player_name : String
  best_score : ℤ
  total_games : ℕ
  average_score : ℚ
  deriving DecidableEq, Repr

/-- Response of `GET /api/stats` (class `GameStatsResponse`). -/
structure GameStatsResponse where
  total_games : ℕ
  total_players : ℕ
  highest_score : ℤ
  average_score : ℚ
  longest_snake : ℤ
  deriving DecidableEq, Repr

/-- Response of `GET /api/health` (class `HealthResponse`). -/
structure HealthResponse where
  status : String
  database : String
  version : String
  deriving DecidableEq, Repr

/-- Python's `max` over a non-empty list of integers (`max(scores)` in
`get_best_score`, `func.max` in SQL); `0` on the empty list, which the
call sites guard against. -/
def listMax : List ℤ → ℤ
  | [] => 0
  | [x] => x
  | x :: y :: xs => max x (listMax (y :: xs))

/-- Minimum of a non-empty list of integers (used to state the
`min(score) ≤ average_score` bound of the spec); `0` on the empty list. -/
def listMin : List ℤ → ℤ
  | [] => 0
  | [x] => x
  | x :: y :: xs => min x (listMin (y :: xs))

/-- Round-half-to-even to the nearest integer, the exact-rational
idealisation of Python's `round`. -/
def roundHalfEven (q : ℚ) : ℤ :=
  if q - ⌊q⌋ < 1/2 then ⌊q⌋
  else if 1/2 < q - ⌊q⌋ then ⌊q⌋ + 1
  else if ⌊q⌋ % 2 = 0 then ⌊q⌋ else ⌊q⌋ + 1

/-- Python's `round(x, 1)`: round to one decimal place, half to even. -/
def round1 (q : ℚ) : ℚ := (roundHalfEven (10 * q) : ℚ) / 10

/-- SQLite `LIMIT`: a negative bound disables truncation, a non-negative
bound keeps the first `limit` rows. -/
def sqlLimit {α : Type} (limit : ℤ) (l : List α) : List α :=
  if limit < 0 then l else l.take limit.toNat

/-- The join condition of `get_leaderboard`: row `r` of the store joins the
`GROUP BY player_name / MAX(score)` subquery exactly when its `score` is
maximal among the rows sharing its `player_name`. -/
def isGroupMax (store : List Score) (r : Score) : Bool :=
  store.all fun s =>
    if s.player_name = r.player_name then decide (s.score ≤ r.score) else true

/-- `ORDER BY Score.score DESC`. -/
def sortByScoreDesc (l : List Score) : List Score :=
  l.insertionSort fun a b => b.score ≤ a.score

/-- `ORDER BY Score.created_at DESC`. -/
def sortByCreatedDesc (l : List Score) : List Score :=
  l.insertionSort fun a b => b.created_at ≤ a.created_at

/-- The `enumerate` loop of `get_leaderboard`: turn the `idx`-th row into a
`LeaderboardEntry` with `rank = idx + 1`. -/
def withRanks (i : ℕ) : List Score → List LeaderboardEntry
  | [] => []
  | r :: rs =>
      ⟨i + 1, r.player_name, r.score, r.snake_length, r.created_at⟩ ::
        withRanks (i + 1) rs

/-- `GET /api/leaderboard` (app/main.py, `get_leaderboard`): join each row
against the per-player maximum-score subquery, order by score descending,
apply `LIMIT limit`, rank the surviving rows `1, 2, …`, and report the
total number of rows in the store. -/
def get_leaderboard (store : List Score) (limit : ℤ) : LeaderboardResponse :=
  { entries :=
      withRanks 0 (sqlLimit limit (sortByScoreDesc (store.filter (isGroupMax store))))
    total_games := store.length }

/-- Validation of `ScoreCreate` (app/schemas.py): `player_name` between 1
and 50 characters, `score ≥ 0`, `snake_length ≥ 1`, `duration_seconds ≥ 0`.
Pydantic runs it before the endpoint body, so a failure leaves the store
untouched. -/
def scoreCreateValid (d : ScoreCreate) : Bool :=
  1 ≤ d.player_name.length && d.player_name.length ≤ 50 &&
    0 ≤ d.score && 1 ≤ d.snake_length && 0 ≤ d.duration_seconds

/-- The next SQLite `INTEGER PRIMARY KEY`: one more than the largest id in
the table (`1` on an empty table). -/
def nextId (store : List Score) : ℤ := listMax (store.map (·.id)) + 1

/-- `POST /api/scores` (app/main.py, `create_score`): on valid input append
a new row with store-assigned `id` and `created_at = now` and return it;
on invalid input reject with a validation error, leaving the store as it
was.  Returns the resulting store together with the outcome. -/
def create_score (store : List Score) (d : ScoreCreate) (now : ℕ) :
    List Score × Except Unit Score :=
  if scoreCreateValid d then
    let new_score : Score :=
      { id := nextId store
        player_name := d.player_name
        score := d.score
        snake_length := d.snake_length
        duration_seconds := d.duration_seconds
        created_at := now }
    (store ++ [new_score], Except.ok new_score)
  else (store, Except.error ())

/-- `GET /api/scores/best` (app/main.py, `get_best_score`): all the rows of
`player_name`; zeros when there are none, else max / count / rounded mean
of the scores. -/
def get_best_score (store : List Score) (player_name : String) : BestScoreResponse :=
  if (store.filter fun s => s.player_name == player_name).isEmpty then
    { player_name := player_name, best_score := 0, total_games := 0, average_score := 0 }
  else
    { player_name := player_name
      best_score := listMax ((store.filter fun s => s.player_name == player_name).map (·.score))
      total_games := ((store.filter fun s => s.player_name == player_name).map (·.score)).length
      average_score :=
        round1 (((((store.filter fun s => s.player_name == player_name).map (·.score)).sum : ℤ) : ℚ) /
          ((((store.filter fun s => s.player_name == player_name).map (·.score)).length : ℕ) : ℚ)) }

/-- `GET /api/stats` (app/main.py, `get_game_stats`): the fixed zero result
(with `longest_snake = 1`) on an empty store, else count / distinct-player
count / max score / rounded mean score / max snake length. -/
def get_game_stats (store : List Score) : GameStatsResponse :=
  if store.length = 0 then
    { total_games := 0, total_players := 0, highest_score := 0
      average_score := 0, longest_snake := 1 }
  else
    { total_games := store.length
      total_players := (store.map (·.player_name)).dedup.length
      highest_score := listMax (store.map (·.score))
      average_score := round1 ((((store.map (·.score)).sum : ℤ) : ℚ) / (store.length : ℚ))
      longest_snake := listMax (store.map (·.snake_length)) }

/-- `GET /api/scores/history` (app/main.py, `get_score_history`): the rows
of `player_name`, newest first, truncated by `LIMIT limit`. -/
def get_score_history (store : List Score) (player_name : String) (limit : ℤ) :
    List Score :=
  sqlLimit limit (sortByCreatedDesc (store.filter fun s => s.player_name == player_name))

/-- `GET /api/health` (app/main.py, `health_check`): `probeOk` is whether
`db.execute("SELECT 1")` succeeded; the endpoint always reports
`status = "healthy"` and encodes the probe outcome in `database`. -/
def health_check (probeOk : Bool) : HealthResponse :=
  { status := "healthy"
    database := if probeOk then "connected" else "error"
    version := "1.0.0" }

/-! ## Supporting lemmas -/

instance : IsTotal Score fun a b => b.score ≤ a.score :=
  ⟨fun a b => le_total b.score a.score⟩

instance : IsTrans Score fun a b => b.score ≤ a.score :=
  ⟨fun _ _ _ hab hbc => le_trans hbc hab⟩

instance : IsTotal Score fun a b => b.created_at ≤ a.created_at :=
  ⟨fun a b => le_total b.created_at a.created_at⟩

instance : IsTrans Score fun a b => b.created_at ≤ a.created_at :=
  ⟨fun _ _ _ hab hbc => le_trans hbc hab⟩

theorem le_listMax {x : ℤ} {l : List ℤ} (hx : x ∈ l) : x ≤ listMax l := by
  induction l with
  | nil => cases hx
  | cons a t ih =>
    cases t with
    | nil =>
      rw [List.mem_singleton] at hx
      simp [listMax, hx]
    | cons b u =>
      rw [listMax]
      rcases List.mem_cons.mp hx with h1 | h2
      · exact h1 ▸ le_max_left _ _
      · exact le_trans (ih h2) (le_max_right _ _)

theorem listMax_mem {l : List ℤ} (hl : l ≠ []) : listMax l ∈ l := by
  induction l with
  | nil => exact absurd rfl hl
  | cons a t ih =>
    cases t with
    | nil => simp [listMax]
    | cons b u =>
      rw [listMax]
      rcases max_choice a (listMax (b :: u)) with h | h
      · rw [h]; exact List.mem_cons_self _ _
      · rw [h]; exact List.mem_cons_of_mem _ (ih (List.cons_ne_nil _ _))

theorem listMin_le {x : ℤ} {l : List ℤ} (hx : x ∈ l) : listMin l ≤ x := by
  induction l with
  | nil => cases hx
  | cons a t ih =>
    cases t with
    | nil =>
      rw [List.mem_singleton] at hx
      simp [listMin, hx]
    | cons b u =>
      rw [listMin]
      rcases List.mem_cons.mp hx with h1 | h2
      · exact h1 ▸ min_le_left _ _
      · exact le_trans (min_le_right _ _) (ih h2)

theorem sum_le_length_mul_listMax (l : List ℤ) :
    l.sum ≤ (l.length : ℤ) * listMax l := by
  have h := List.sum_le_card_nsmul l (listMax l) fun _ hx => le_listMax hx
  simpa [nsmul_eq_mul] using h

theorem length_mul_listMin_le_sum (l : List ℤ) :
    (l.length : ℤ) * listMin l ≤ l.sum := by
  have h := List.card_nsmul_le_sum l (listMin l) fun _ hx => listMin_le hx
  simpa [nsmul_eq_mul] using h

theorem le_roundHalfEven {m : ℤ} {q : ℚ} (h : (m : ℚ) ≤ q) : m ≤ roundHalfEven q := by
  have hf : m ≤ ⌊q⌋ := Int.le_floor.mpr h
  unfold roundHalfEven
  split_ifs <;> omega

theorem roundHalfEven_le {M : ℤ} {q : ℚ} (h : q ≤ (M : ℚ)) : roundHalfEven q ≤ M := by
  have hfM : ⌊q⌋ ≤ M := by
    have := (Int.floor_le_floor h).trans_eq (Int.floor_intCast M)
    exact this
  have hlt : (1 : ℚ) / 2 ≤ q - ⌊q⌋ → ⌊q⌋ < M := by
    intro hhalf
    have h1 : (⌊q⌋ : ℚ) < q := by linarith
    have h2 : (⌊q⌋ : ℚ) < (M : ℚ) := lt_of_lt_of_le h1 h
    exact_mod_cast h2
  unfold roundHalfEven
  split_ifs with h1 h2 h3
  · exact hfM
  · exact hlt (le_of_lt h2)
  · exact hfM
  · exact hlt (le_of_not_lt h1)

theorem round1_bounds {m M : ℤ} {q : ℚ} (h1 : (m : ℚ) ≤ q) (h2 : q ≤ (M : ℚ)) :
    (m : ℚ) ≤ round1 q ∧ round1 q ≤ (M : ℚ) := by
  have hm : 10 * m ≤ roundHalfEven (10 * q) := by
    apply le_roundHalfEven
    push_cast
    linarith
  have hM : roundHalfEven (10 * q) ≤ 10 * M := by
    apply roundHalfEven_le
    push_cast
    linarith
  unfold round1
  constructor
  · rw [le_div_iff₀ (by norm_num : (0 : ℚ) < 10)]
    have : ((10 * m : ℤ) : ℚ) ≤ ((roundHalfEven (10 * q) : ℤ) : ℚ) := by exact_mod_cast hm
    push_cast at this ⊢
    linarith
  · rw [div_le_iff₀ (by norm_num : (0 : ℚ) < 10)]
    have : ((roundHalfEven (10 * q) : ℤ) : ℚ) ≤ ((10 * M : ℤ) : ℚ) := by exact_mod_cast hM
    push_cast at this ⊢
    linarith

theorem mean_bounds {l : List ℤ} (hl : l ≠ []) :
    (listMin l : ℚ) ≤ ((l.sum : ℤ) : ℚ) / (l.length : ℚ) ∧
      ((l.sum : ℤ) : ℚ) / (l.length : ℚ) ≤ (listMax l : ℚ) := by
  have hn : 0 < (l.length : ℚ) := by
    have : 0 < l.length := List.length_pos.mpr hl
    exact_mod_cast this
  constructor
  · rw [le_div_iff₀ hn]
    have h := length_mul_listMin_le_sum l
    have : ((l.length : ℤ) : ℚ) * (listMin l : ℚ) ≤ ((l.sum : ℤ) : ℚ) := by exact_mod_cast h
    push_cast at this ⊢
    linarith
  · rw [div_le_iff₀ hn]
    have h := sum_le_length_mul_listMax l
    have : ((l.sum : ℤ) : ℚ) ≤ ((l.length : ℤ) : ℚ) * (listMax l : ℚ) := by exact_mod_cast h
    push_cast at this ⊢
    linarith

theorem withRanks_length (l : List Score) : ∀ i : ℕ, (withRanks i l).length = l.length := by
  induction l with
  | nil => intro i; rfl
  | cons r rs ih => intro i; simp [withRanks, ih]

theorem withRanks_get_rank (l : List Score) :
    ∀ (i j : ℕ) (h : j < (withRanks i l).length),
      ((withRanks i l).get ⟨j, h⟩).rank = i + j + 1 := by
  induction l with
  | nil => intro i j h; simp [withRanks] at h
  | cons r rs ih =>
    intro i j h
    cases j with
    | zero => simp [withRanks]
    | succ k =>
      have hk : k < (withRanks (i + 1) rs).length := by
        simpa [withRanks] using Nat.lt_of_succ_lt_succ (by simpa [withRanks] using h)
      have := ih (i + 1) k hk
      simpa [withRanks, List.get] using this.trans (by omega)

theorem mem_withRanks_score {e : LeaderboardEntry} :
    ∀ {i : ℕ} {l : List Score}, e ∈ withRanks i l →
      ∃ r ∈ l, e.score = r.score ∧ e.player_name = r.player_name := by
  intro i l
  induction l generalizing i with
  | nil => intro h; simp [withRanks] at h
  | cons r rs ih =>
    intro h
    rw [withRanks, List.mem_cons] at h
    rcases h with h | h
    · exact ⟨r, List.mem_cons_self _ _, by rw [h], by rw [h]⟩
    · obtain ⟨r', hr', hs, hn⟩ := ih h
      exact ⟨r', List.mem_cons_of_mem _ hr', hs, hn⟩

theorem withRanks_sorted {l : List Score}
    (hl : List.Sorted (fun a b : Score => b.score ≤ a.score) l) :
    ∀ i : ℕ,
      List.Sorted (fun a b : LeaderboardEntry => b.score ≤ a.score) (withRanks i l) := by
  induction l with
  | nil => intro i; simp [withRanks, List.Sorted]
  | cons r rs ih =>
    intro i
    rw [List.sorted_cons] at hl
    rw [withRanks, List.sorted_cons]
    refine ⟨fun e he => ?_, ih hl.2 (i + 1)⟩
    obtain ⟨r', hr', hs, _⟩ := mem_withRanks_score he
    exact hs ▸ hl.1 r' hr'

/-! ## Concrete stores used as witnesses and counterexamples -/

/-- Two games of player "A", tied at the maximum score 100. -/
def rowA1 : Score := ⟨1, "A", 100, 10, 30, 0⟩

/-- A second game of player "A" with the same score 100. -/
def rowA2 : Score := ⟨2, "A", 100, 12, 40, 1⟩

/-- One game of player "B". -/
def rowB : Score := ⟨3, "B", 150, 8, 20, 2⟩

/-! ## Claims -/

/-- C1: the claim says each distinct `player_name` appears at most once in
the `Leaderboard` entries, even when a player has several records tied at
the maximum score.  The code violates this: the `GROUP BY`/`MAX` subquery
is joined back on `(player_name, score)`, so every record tied at the
player's maximum survives the join.  On a store holding two records of
player "A" both with score 100, `get_leaderboard` with limit 10 lists
"A" twice. -/
theorem c1_tied_max_duplicates_player :
    ((get_leaderboard [rowA1, rowA2] 10).entries.map (·.player_name)) = ["A", "A"] ∧
      ((get_leaderboard [rowA1, rowA2] 10).entries.map (·.player_name)).count "A" = 2 := by
  decide

/-- C2: the claim says every limit ≤ 0 yields an empty `entries` sequence.
False for negative limits: the handler passes `limit` straight to SQLite's
`LIMIT`, and SQLite treats a negative `LIMIT` as "unbounded", so with one
record in the store and `limit = -1` one entry is returned. -/
theorem c2_negative_limit_not_empty :
    (-1 : ℤ) ≤ 0 ∧ (get_leaderboard [rowA1] (-1)).entries ≠ [] := by
  decide

/-- C2 (amended): `total_games` always equals the record count; a limit of
exactly 0 yields an empty `entries` sequence; a negative limit disables
truncation entirely, returning one entry per per-player-maximum record. -/
theorem c2_zero_limit_empty_entries (store : List Score) (limit : ℤ) :
    (get_leaderboard store limit).total_games = store.length ∧
      (limit = 0 → (get_leaderboard store limit).entries = []) ∧
      (limit < 0 →
        (get_leaderboard store limit).entries.length =
          (store.filter (isGroupMax store)).length) := by
  refine ⟨rfl, fun h0 => ?_, fun hneg => ?_⟩
  · subst h0
    simp [get_leaderboard, sqlLimit, withRanks]
  · have hlim : sqlLimit limit (sortByScoreDesc (store.filter (isGroupMax store)))
        = sortByScoreDesc (store.filter (isGroupMax store)) := by
      simp [sqlLimit, hneg]
    have hperm := List.perm_insertionSort
      (fun a b : Score => b.score ≤ a.score) (store.filter (isGroupMax store))
    simp only [get_leaderboard, hlim]
    rw [withRanks_length]
    exact hperm.length_eq

/-- C2 (witness): on the one-record store, limit 0 gives no entries while a
negative limit gives exactly the one per-player best record. -/
theorem c2_zero_limit_empty_entries_witness :
    (get_leaderboard [rowA1] 0).entries = [] ∧
      (get_leaderboard [rowA1] (-1)).entries.length = ([rowA1].filter (isGroupMax [rowA1])).length :=
  ⟨(c2_zero_limit_empty_entries [rowA1] 0).2.1 rfl,
    (c2_zero_limit_empty_entries [rowA1] (-1)).2.2 (by decide)⟩

/-- C6: on the empty store, `GlobalStats` returns exactly
`total_games = 0`, `total_players = 0`, `highest_score = 0`,
`average_score = 0.0` and `longest_snake = 1`. -/
theorem c6_global_stats_empty_store :
    get_game_stats [] =
      { total_games := 0, total_players := 0, highest_score := 0
        average_score := 0, longest_snake := 1 } := rfl

/-- C7: for a player with no records in the store, `PlayerSummary` is the
defined zero result `{player_name, 0, 0, 0.0}`, not an error. -/
theorem c7_unknown_player_zero_summary (store : List Score) (name : String)
    (h : store.filter (fun s => s.player_name == name) = []) :
    get_best_score store name =
      { player_name := name, best_score := 0, total_games := 0, average_score := 0 } := by
  rw [get_best_score, h]
  rfl

/-- C7 (witness): querying "A" on a store holding only a record of "B". -/
theorem c7_unknown_player_zero_summary_witness :
    get_best_score [rowB] "A" =
      { player_name := "A", best_score := 0, total_games := 0, average_score := 0 } :=
  c7_unknown_player_zero_summary [rowB] "A" (by decide)

/-- C9: the health check always reports `status = "healthy"`, whether or
not the database probe succeeds; the probe outcome appears only in the
`database` field, as `"connected"` on success and `"error"` on failure. -/
theorem c9_health_status_constant (probeOk : Bool) :
    (health_check probeOk).status = "healthy" ∧
      (health_check probeOk).database = (if probeOk then "connected" else "error") ∧
      (health_check probeOk).version = "1.0.0" :=
  ⟨rfl, rfl, rfl⟩

/-- C3: for every store and positive limit, the leaderboard has at most
`limit` entries, the entries are sorted by score descending, and the entry
at 0-based position `i` carries rank `i + 1`. -/
theorem c3_leaderboard_bounded_sorted_ranked (store : List Score) (limit : ℤ)
    (h : 0 < limit) :
    (((get_leaderboard store limit).entries.length : ℤ) ≤ limit ∧
      List.Sorted (fun a b : LeaderboardEntry => b.score ≤ a.score)
        (get_leaderboard store limit).entries) ∧
      ∀ (i : ℕ) (hi : i < (get_leaderboard store limit).entries.length),
        ((get_leaderboard store limit).entries.get ⟨i, hi⟩).rank = i + 1 := by
  have hnotneg : ¬ limit < 0 := not_lt.mpr h.le
  have hentries : (get_leaderboard store limit).entries
      = withRanks 0 ((sortByScoreDesc (store.filter (isGroupMax store))).take limit.toNat) := by
    simp [get_leaderboard, sqlLimit, hnotneg]
  have hranks : ∀ (L : List Score) (ent : List LeaderboardEntry), ent = withRanks 0 L →
      ∀ (i : ℕ) (hi : i < ent.length), (ent.get ⟨i, hi⟩).rank = i + 1 := by
    rintro L ent rfl i hi
    simpa using withRanks_get_rank L 0 i hi
  refine ⟨⟨?_, ?_⟩, hranks _ _ hentries⟩
  · rw [hentries, withRanks_length]
    have h1 : ((sortByScoreDesc (store.filter (isGroupMax store))).take limit.toNat).length
        ≤ limit.toNat := by
      simp [List.length_take]
    calc (((sortByScoreDesc (store.filter (isGroupMax store))).take limit.toNat).length : ℤ)
        ≤ (limit.toNat : ℤ) := by exact_mod_cast h1
      _ = limit := Int.toNat_of_nonneg h.le
  · rw [hentries]
    apply withRanks_sorted
    exact List.Pairwise.sublist (List.take_sublist _ _)
      (List.sorted_insertionSort (fun a b : Score => b.score ≤ a.score) _)

/-- C3 (witness): the tied two-record store with limit 1 keeps a single,
rank-1 entry. -/
theorem c3_leaderboard_bounded_sorted_ranked_witness :
    (((get_leaderboard [rowA1, rowA2] 1).entries.length : ℤ) ≤ 1 ∧
      List.Sorted (fun a b : LeaderboardEntry => b.score ≤ a.score)
        (get_leaderboard [rowA1, rowA2] 1).entries) ∧
      ∀ (i : ℕ) (hi : i < (get_leaderboard [rowA1, rowA2] 1).entries.length),
        ((get_leaderboard [rowA1, rowA2] 1).entries.get ⟨i, hi⟩).rank = i + 1 :=
  c3_leaderboard_bounded_sorted_ranked [rowA1, rowA2] 1 (by decide)

/-- C8: for every store, player name and positive limit, the history query
returns only records of that player, ordered by `created_at` descending,
and at most `limit` of them. -/
theorem c8_history_filtered_sorted_bounded (store : List Score) (name : String)
    (limit : ℤ) (h : 0 < limit) :
    (∀ r ∈ get_score_history store name limit, r.player_name = name) ∧
      List.Sorted (fun a b : Score => b.created_at ≤ a.created_at)
        (get_score_history store name limit) ∧
      ((get_score_history store name limit).length : ℤ) ≤ limit := by
  have hnotneg : ¬ limit < 0 := not_lt.mpr h.le
  have hh : get_score_history store name limit
      = (sortByCreatedDesc (store.filter fun s => s.player_name == name)).take limit.toNat := by
    simp [get_score_history, sqlLimit, hnotneg]
  refine ⟨?_, ?_, ?_⟩
  · intro r hr
    rw [hh] at hr
    have hr2 : r ∈ sortByCreatedDesc (store.filter fun s => s.player_name == name) :=
      (List.take_sublist _ _).subset hr
    rw [sortByCreatedDesc, List.mem_insertionSort] at hr2
    have := (List.mem_filter.mp hr2).2
    exact eq_of_beq this
  · rw [hh]
    exact List.Pairwise.sublist (List.take_sublist _ _)
      (List.sorted_insertionSort (fun a b : Score => b.created_at ≤ a.created_at) _)
  · rw [hh]
    have h1 : ((sortByCreatedDesc (store.filter fun s => s.player_name == name)).take
        limit.toNat).length ≤ limit.toNat := by
      simp [List.length_take]
    calc (((sortByCreatedDesc (store.filter fun s => s.player_name == name)).take
          limit.toNat).length : ℤ)
        ≤ (limit.toNat : ℤ) := by exact_mod_cast h1
      _ = limit := Int.toNat_of_nonneg h.le

/-- C8 (witness): history of "A" over the three-record store, limit 2. -/
theorem c8_history_filtered_sorted_bounded_witness :
    (∀ r ∈ get_score_history [rowA1, rowA2, rowB] "A" 2, r.player_name = "A") ∧
      List.Sorted (fun a b : Score => b.created_at ≤ a.created_at)
        (get_score_history [rowA1, rowA2, rowB] "A" 2) ∧
      ((get_score_history [rowA1, rowA2, rowB] "A" 2).length : ℤ) ≤ 2 :=
  c8_history_filtered_sorted_bounded [rowA1, rowA2, rowB] "A" 2 (by decide)

/-- C4: a submission with `score < 0`, `snake_length < 1`,
`duration_seconds < 0`, or an empty or over-50-character `player_name` is
rejected and the store is left unchanged; any other submission is appended
to the store with its assigned `id` and `created_at` and returned. -/
theorem c4_submission_validated (store : List Score) (d : ScoreCreate) (now : ℕ) :
    ((d.score < 0 ∨ d.snake_length < 1 ∨ d.duration_seconds < 0 ∨
        d.player_name.length = 0 ∨ 50 < d.player_name.length) →
      create_score store d now = (store, Except.error ())) ∧
    (0 ≤ d.score → 1 ≤ d.snake_length → 0 ≤ d.duration_seconds →
      1 ≤ d.player_name.length → d.player_name.length ≤ 50 →
      create_score store d now =
        (store ++ [{ id := nextId store, player_name := d.player_name, score := d.score,
                     snake_length := d.snake_length, duration_seconds := d.duration_seconds,
                     created_at := now }],
          Except.ok { id := nextId store, player_name := d.player_name, score := d.score,
                      snake_length := d.snake_length, duration_seconds := d.duration_seconds,
                      created_at := now })) := by
  constructor
  · intro hbad
    have hv : scoreCreateValid d = false := by
      simp only [scoreCreateValid, Bool.and_eq_false_iff, decide_eq_false_iff_not, not_le]
      omega
    simp [create_score, hv]
  · intro h1 h2 h3 h4 h5
    have hv : scoreCreateValid d = true := by
      simp only [scoreCreateValid, Bool.and_eq_true, decide_eq_true_eq]
      omega
    simp [create_score, hv]

/-- C4 (witness): a negative-score submission is rejected leaving the empty
store empty; a valid submission is appended with id 1 and the given
creation time. -/
theorem c4_submission_validated_witness :
    create_score [] ⟨"A", -1, 5, 5⟩ 3 = ([], Except.error ()) ∧
      create_score [] ⟨"A", 7, 5, 5⟩ 3 =
        ([{ id := nextId [], player_name := "A", score := 7, snake_length := 5,
            duration_seconds := 5, created_at := 3 }],
          Except.ok { id := nextId [], player_name := "A", score := 7, snake_length := 5,
                      duration_seconds := 5, created_at := 3 }) :=
  ⟨(c4_submission_validated [] ⟨"A", -1, 5, 5⟩ 3).1 (Or.inl (by decide)),
    (c4_submission_validated [] ⟨"A", 7, 5, 5⟩ 3).2 (by decide) (by decide) (by decide)
      (by decide) (by decide)⟩

/-- C5: for a player with at least one record, `PlayerSummary` reports
`best_score` equal to the maximum of the player's scores, `total_games`
equal to the number of the player's records, and `average_score` equal to
the one-decimal rounding of the mean score, which lies between the
player's minimum and maximum scores. -/
theorem c5_player_summary_aggregates (store : List Score) (name : String)
    (h : store.filter (fun s => s.player_name == name) ≠ []) :
    ((get_best_score store name).best_score
        ∈ (store.filter fun s => s.player_name == name).map (·.score) ∧
      (∀ x ∈ (store.filter fun s => s.player_name == name).map (·.score),
        x ≤ (get_best_score store name).best_score)) ∧
    (get_best_score store name).total_games
        = (store.filter fun s => s.player_name == name).length ∧
    (get_best_score store name).average_score
        = round1 (((((store.filter fun s => s.player_name == name).map (·.score)).sum : ℤ) : ℚ) /
            (((store.filter fun s => s.player_name == name).map (·.score)).length : ℚ)) ∧
    ((listMin ((store.filter fun s => s.player_name == name).map (·.score)) : ℚ)
        ≤ (get_best_score store name).average_score ∧
      (get_best_score store name).average_score
        ≤ (listMax ((store.filter fun s => s.player_name == name).map (·.score)) : ℚ)) := by
  have hmapne : (store.filter fun s => s.player_name == name).map (·.score) ≠ [] := by
    simpa using h
  have hempty : (store.filter fun s => s.player_name == name).isEmpty = false := by
    simpa [List.isEmpty_iff] using h
  have hgb : get_best_score store name =
      { player_name := name
        best_score := listMax ((store.filter fun s => s.player_name == name).map (·.score))
        total_games := ((store.filter fun s => s.player_name == name).map (·.score)).length
        average_score :=
          round1 (((((store.filter fun s => s.player_name == name).map (·.score)).sum : ℤ) : ℚ) /
            (((store.filter fun s => s.player_name == name).map (·.score)).length : ℚ)) } := by
    rw [get_best_score, hempty]
    simp
  have hmean := mean_bounds hmapne
  have hbounds := round1_bounds hmean.1 hmean.2
  rw [hgb]
  refine ⟨⟨listMax_mem hmapne, fun x hx => le_listMax hx⟩, by simp, rfl, hbounds.1, hbounds.2⟩

/-- C5 (witness): player "A" with two tied records of score 100. -/
theorem c5_player_summary_aggregates_witness :
    ((get_best_score [rowA1, rowA2, rowB] "A").best_score
        ∈ ([rowA1, rowA2, rowB].filter fun s => s.player_name == "A").map (·.score) ∧
      (∀ x ∈ ([rowA1, rowA2, rowB].filter fun s => s.player_name == "A").map (·.score),
        x ≤ (get_best_score [rowA1, rowA2, rowB] "A").best_score)) ∧
    (get_best_score [rowA1, rowA2, rowB] "A").total_games
        = ([rowA1, rowA2, rowB].filter fun s => s.player_name == "A").length ∧
    (get_best_score [rowA1, rowA2, rowB] "A").average_score
        = round1 ((((([rowA1, rowA2, rowB].filter fun s => s.player_name == "A").map
              (·.score)).sum : ℤ) : ℚ) /
            ((([rowA1, rowA2, rowB].filter fun s => s.player_name == "A").map
              (·.score)).length : ℚ)) ∧
    ((listMin (([rowA1, rowA2, rowB].filter fun s => s.player_name == "A").map (·.score)) : ℚ)
        ≤ (get_best_score [rowA1, rowA2, rowB] "A").average_score ∧
      (get_best_score [rowA1, rowA2, rowB] "A").average_score
        ≤ (listMax (([rowA1, rowA2, rowB].filter fun s => s.player_name == "A").map
            (·.score)) : ℚ)) :=
  c5_player_summary_aggregates [rowA1, rowA2, rowB] "A" (by decide)
